import Mathlib

/-
Verification of the AIFR JSON-LD report pipeline (src/kb.py, src/models.py,
src/main.py) against its natural-language specification.

The embedding below translates the Python source into Lean:
  * knowledge-base entries are JSON objects, modelled as association lists
    of string keys and JSON-ish values (Python dicts preserve insertion
    order and have unique keys; first-match lookup models dict lookup);
  * the pydantic models become structures whose construction-time
    validators become explicit checks (a structure that pydantic refuses to
    construct is represented by an `Except.error`, carrying the Python
    error message);
  * `raise ValueError(...)` becomes `Except.error` with the same message;
  * ambient process state consumed by the source (the per-process seed of
    CPython's randomized string hash, the current UTC time) is passed as
    explicit parameters.
-/

set_option maxHeartbeats 1000000
set_option maxRecDepth 100000

/-- JSON-ish values, as stored in the knowledge-base files consumed by
kb.py.  Only the shapes the source touches are needed: strings, objects
(ordered key/value fields), arrays and null. -/
inductive JValue : Type where
  | null : JValue
  | str : String → JValue
  | obj : List (String × JValue) → JValue
  | arr : List JValue → JValue

/-- A JSON object's fields: a Python dict with string keys. -/
abbrev Entry := List (String × JValue)

/-- Python `d.get(k)` / `d[k]`: the value of the first binding of `k`
(keys of a Python dict are unique, so first-match lookup is the dict
lookup). -/
def dictGet (d : Entry) (k : String) : Option JValue :=
  match d with
  | [] => none
  | (k', v) :: rest => if k' = k then some v else dictGet rest k

/-- Python `d.get(k, {})` used as a dict afterwards: the fields when the
stored value is an object, the empty default when the key is absent.  (A
present non-object value would be a runtime type error in the Python
source; the knowledge-base data shapes it is run on are objects.) -/
def getObjFields (d : Entry) (k : String) : Entry :=
  match dictGet d k with
  | some (JValue.obj fields) => fields
  | _ => []

/-- Python `d.get(k, dflt)` used where a string is expected.  (A present
non-string value would fail pydantic's field validation in the source.) -/
def getStrD (d : Entry) (k dflt : String) : String :=
  match dictGet d k with
  | some (JValue.str s) => s
  | _ => dflt

/-- Python dict assignment `d[k] = v`: replaces the binding in place when
the key is present, appends it otherwise. -/
def dictSet (d : Entry) (k : String) (v : JValue) : Entry :=
  match d with
  | [] => [(k, v)]
  | (k', v') :: rest => if k' = k then (k, v) :: rest else (k', v') :: dictSet rest k v

/-- Python `k.startswith("_")` for the one-character internal-field
marker: the first character of `k` is an underscore (false on the empty
string). -/
def startsWithUnderscore (k : String) : Bool :=
  match k.data with
  | [] => false
  | c :: _ => c = '_'

/-- kb.py `_clean_internal_fields`: remove every field whose name starts
with an underscore. -/
def clean_internal_fields (d : Entry) : Entry :=
  d.filter (fun kv => !(startsWithUnderscore kv.1))

/-- kb.py `KnowledgeBase`: the two collections loaded at construction from
ai-systems.jsonld and organizations.jsonld (each file's "@graph" list).
The file I/O is outside the model; the collections are the state the
lookups run on. -/
structure KnowledgeBase : Type where
  systems : List Entry
  organizations : List Entry

/-- The value of `e.get("_aifr_internal", {}).get("slug")` when it is a
string (a non-string value never compares equal to a queried slug
string). -/
def internalSlugVal (e : Entry) : Option String :=
  match dictGet (getObjFields e "_aifr_internal") "slug" with
  | some (JValue.str s) => some s
  | _ => none

/-- The slug under which `KnowledgeBase.__init__` registers an entry in
`slug_map`: Python `if slug:` skips a missing slug and the empty string. -/
def loadedSlug (e : Entry) : Option String :=
  match internalSlugVal e with
  | some s => if s = "" then none else some s
  | none => none

/-- One `slug_map[slug] = entry` step of `KnowledgeBase.__init__`. -/
def slugMapInsert (m : String → Option Entry) (e : Entry) : String → Option Entry :=
  match loadedSlug e with
  | some s => fun k => if k = s then some e else m k
  | none => m

/-- The `slug_map` built in `KnowledgeBase.__init__`: systems inserted
first, then organizations; a later insert overwrites an earlier one with
the same slug. -/
def slug_map (kb : KnowledgeBase) : String → Option Entry :=
  (kb.systems ++ kb.organizations).foldl slugMapInsert (fun _ => none)

/-- kb.py `KnowledgeBase.find_by_slug`: lookup in the combined map. -/
def find_by_slug (kb : KnowledgeBase) (slug : String) : Option Entry :=
  slug_map kb slug

/-- kb.py `KnowledgeBase.find_system_by_slug`: linear scan over the
systems collection only. -/
def find_system_by_slug (kb : KnowledgeBase) (slug : String) : Option Entry :=
  kb.systems.find? (fun e => internalSlugVal e == some slug)

/-- kb.py `KnowledgeBase.find_organization_by_id`: linear scan over the
organizations, matching the public "@id" field. -/
def find_organization_by_id (kb : KnowledgeBase) (org_id : String) : Option Entry :=
  kb.organizations.find? (fun o =>
    match dictGet o "@id" with
    | some (JValue.str s) => s == org_id
    | _ => false)

/-- kb.py `system.get("publisher", {}).get("@id")` followed by Python
truthiness (`if publisher_id:`): present, a string, and non-empty. -/
def publisher_id_of (e : Entry) : Option String :=
  match dictGet (getObjFields e "publisher") "@id" with
  | some (JValue.str s) => if s = "" then none else some s
  | _ => none

/-- kb.py `KnowledgeBase.get_system_jsonld`: clean copy of the system
entry, with the publisher reference replaced by the cleaned full
organization record when it resolves. -/
def get_system_jsonld (kb : KnowledgeBase) (slug : String) : Option Entry :=
  match find_system_by_slug kb slug with
  | none => none
  | some system =>
    let jsonld_system := clean_internal_fields system
    match publisher_id_of system with
    | none => some jsonld_system
    | some publisher_id =>
      match find_organization_by_id kb publisher_id with
      | none => some jsonld_system
      | some org_data =>
        some (dictSet jsonld_system "publisher" (JValue.obj (clean_internal_fields org_data)))

/-- models.py `UnknownAISystem`: the description field; its `min_length=1`
constraint is checked in `isValidRawReport` below. -/
structure UnknownAISystem : Type where
  description : String

deriving instance DecidableEq for UnknownAISystem

/-- models.py `RawAIFlawReport`: the raw field values as supplied by the
form (all four keys provided explicitly, as in src/main.py's ingestion of
the form JSON).  The construction-time pydantic validation is
`isValidRawReport` below. -/
structure RawAIFlawReport : Type where
  ai_systems : List String
  ai_systems_unknown : List UnknownAISystem
  flaw_description : String
  flaw_severity : String

deriving instance DecidableEq for RawAIFlawReport

/-- models.py `validate_severity`: membership in {Low, Medium, High,
Critical}. -/
def validSeverity (s : String) : Bool :=
  s == "Low" || s == "Medium" || s == "High" || s == "Critical"

/-- models.py `validate_at_least_one_system`, as pydantic runs it on the
field `ai_systems` (the first declared field): `values` holds only
previously validated fields, so neither `ai_systems` nor
`ai_systems_unknown` is in `values` and both local variables fall back to
`v`, the `ai_systems` value itself. -/
def validate_at_least_one_on_ai_systems (r : RawAIFlawReport) : Bool :=
  !(r.ai_systems.isEmpty && r.ai_systems.isEmpty)

/-- models.py `validate_at_least_one_system`, as pydantic runs it on the
field `ai_systems_unknown`: `ai_systems` is in `values` exactly when its
own validator passed (its type validation, a list of strings, always
succeeds); otherwise both local variables fall back to `v`, the
`ai_systems_unknown` value. -/
def validate_at_least_one_on_ai_systems_unknown (r : RawAIFlawReport) : Bool :=
  if validate_at_least_one_on_ai_systems r then
    !(r.ai_systems.isEmpty && r.ai_systems_unknown.isEmpty)
  else
    !(r.ai_systems_unknown.isEmpty && r.ai_systems_unknown.isEmpty)

/-- models.py `RawAIFlawReport` construction succeeds: every
`UnknownAISystem.description` meets `min_length=1`, `flaw_description`
meets `min_length=10`, the severity label is accepted, and both
instantiations of the cross-field validator pass. -/
def isValidRawReport (r : RawAIFlawReport) : Bool :=
  r.ai_systems_unknown.all (fun u => decide (1 ≤ u.description.length)) &&
  decide (10 ≤ r.flaw_description.length) &&
  validSeverity r.flaw_severity &&
  validate_at_least_one_on_ai_systems r &&
  validate_at_least_one_on_ai_systems_unknown r

/-- models.py `AISystem`: resolved system data.  `type_valid` is the
`validate_system_type` pydantic validator, which every constructed
instance satisfies. -/
structure AISystem : Type where
  id : String
  name : String
  version : String
  slug : String
  display_name : String
  system_type : String
  description : Option String
  type_valid : system_type = "known" ∨ system_type = "unknown"

/-- models.py `ProcessedAIFlawReport`: every constructed instance
satisfies the `validate_at_least_one_system` pydantic validator, carried
as the `systems_nonempty` field. -/
structure ProcessedAIFlawReport : Type where
  report_id : String
  created_at : Nat
  ai_systems : List AISystem
  flaw_description : String
  flaw_severity : String
  systems_nonempty : ai_systems ≠ []

/-- Construction of a `ProcessedAIFlawReport`: pydantic raises
`ValueError('Must specify at least one AI system')` on an empty systems
list, otherwise yields the instance. -/
def mkProcessedReport (report_id : String) (created_at : Nat)
    (systems : List AISystem) (flaw_description flaw_severity : String) :
    Except String ProcessedAIFlawReport :=
  match systems with
  | [] => Except.error "Must specify at least one AI system"
  | s :: rest =>
    Except.ok ⟨report_id, created_at, s :: rest, flaw_description, flaw_severity,
      List.cons_ne_nil s rest⟩

/-- Modelled from the spec: src/main.py line 33 computes the report id
with CPython's built-in `hash` on a string, which the runtime implements
as SipHash keyed by a per-process random seed (PYTHONHASHSEED) — the spec
describes it as "a per-process randomized hash".  The model makes the
per-process seed an explicit parameter of a keyed rolling hash:
deterministic given (seed, content), varying with the seed. -/
def pyStrHash (seed : Nat) (s : String) : Nat :=
  s.data.foldl (fun h c => (h * 31 + c.toNat) % 2305843009213693951)
    (seed % 2305843009213693951)

/-- One JSON string literal (escaping of quotes and backslashes is
elided; no input in this development contains them). -/
def jsonStr (s : String) : String := "\"" ++ s ++ "\""

/-- pydantic `model_dump_json` on a `RawAIFlawReport`: compact JSON with
the fields in declaration order. -/
def model_dump_json (r : RawAIFlawReport) : String :=
  "\x7b\"ai_systems\":[" ++ String.intercalate "," (r.ai_systems.map jsonStr)
    ++ "],\"ai_systems_unknown\":["
    ++ String.intercalate ","
        (r.ai_systems_unknown.map (fun u =>
          "\x7b\"description\":" ++ jsonStr u.description ++ "\x7d"))
    ++ "],\"flaw_description\":" ++ jsonStr r.flaw_description
    ++ ",\"flaw_severity\":" ++ jsonStr r.flaw_severity ++ "\x7d"

/-- src/main.py line 33: `report_id = f"{hash(raw_report.model_dump_json()) % 100000}"`,
with the per-process hash seed explicit. -/
def report_id_of (seed : Nat) (r : RawAIFlawReport) : String :=
  toString (pyStrHash seed (model_dump_json r) % 100000)

/-- The body of the known-systems loop of `process_raw_report`: the
`AISystem` built from a found knowledge-base entry. -/
def mkKnownAISystem (system_data : Entry) (slug : String) : AISystem :=
  { id := getStrD system_data "@id" ""
    name := getStrD system_data "name" ""
    version := getStrD system_data "version" ""
    slug := getStrD (getObjFields system_data "_aifr_internal") "slug" slug
    display_name := getStrD (getObjFields system_data "_aifr_internal") "displayName"
      (getStrD system_data "name" "")
    system_type := "known"
    description := none
    type_valid := Or.inl rfl }

/-- The known-systems loop of `process_raw_report`: append the resolved
`AISystem` for each slug that `find_system_by_slug` finds; silently skip
the rest. -/
def resolveKnownSystems (kb : KnowledgeBase) (slugs : List String) : List AISystem :=
  slugs.foldl (fun acc slug =>
    match find_system_by_slug kb slug with
    | some system_data => acc ++ [mkKnownAISystem system_data slug]
    | none => acc) []

/-- The body of the unknown-systems loop of `process_raw_report`, for the
1-based index `idx1` (`idx + 1` in the source). -/
def mkUnknownAISystem (report_id : String) (idx1 : Nat) (u : UnknownAISystem) : AISystem :=
  { id := "https://aifr.org/reports/" ++ report_id ++ "/unknown-system-" ++ toString idx1
    name := "Unknown System"
    version := ""
    slug := ""
    display_name := "Unknown System"
    system_type := "unknown"
    description := some u.description
    type_valid := Or.inr rfl }

/-- The `enumerate` loop over the unknown systems: the k-th description
(0-based) receives 1-based index `n + k` when started at `n`;
`process_raw_report` starts at `n = 1`. -/
def mkUnknownSystems (report_id : String) (n : Nat) (l : List UnknownAISystem) : List AISystem :=
  match l with
  | [] => []
  | u :: rest => mkUnknownAISystem report_id n u :: mkUnknownSystems report_id (n + 1) rest

/-- src/main.py `process_raw_report`: resolve known slugs (silently
dropping misses), compute the report id, synthesize unknown systems, and
construct the `ProcessedAIFlawReport` (whose pydantic validator raises on
an empty systems list).  `seed` is the per-process hash seed and `now`
the current UTC time, both ambient in the source. -/
def process_raw_report (seed now : Nat) (kb : KnowledgeBase) (raw : RawAIFlawReport) :
    Except String ProcessedAIFlawReport :=
  mkProcessedReport (report_id_of seed raw) now
    (resolveKnownSystems kb raw.ai_systems ++
      mkUnknownSystems (report_id_of seed raw) 1 raw.ai_systems_unknown)
    raw.flaw_description raw.flaw_severity

/-- The JSON-LD object emitted for an unknown system in
`serialize_to_jsonld`. -/
def unknownJsonLd (s : AISystem) : JValue :=
  JValue.obj [("@type", JValue.str "schema:SoftwareApplication"),
              ("@id", JValue.str s.id),
              ("description", match s.description with
                | some d => JValue.str d
                | none => JValue.null)]

/-- One iteration of the serialize loop: the JSON-LD projection paired
with the display name appended to `system_names`.  The source's
`if not jsonld_system: raise ValueError(...)` is a Python truthiness
test, falsy both when `get_system_jsonld` returns None and when it
returns an empty dict (an entry carrying only internal fields cleans to
an empty document), so both branches raise. -/
def serializeSystem (kb : KnowledgeBase) (s : AISystem) : Except String (JValue × String) :=
  if s.system_type = "unknown" then
    Except.ok (unknownJsonLd s, "Unknown System")
  else
    match get_system_jsonld kb s.slug with
    | none => Except.error ("System slug " ++ s.slug ++ " not found in knowledge base")
    | some jsonld_system =>
      if jsonld_system.isEmpty then
        Except.error ("System slug " ++ s.slug ++ " not found in knowledge base")
      else
        Except.ok (JValue.obj jsonld_system, s.display_name)

/-- The serialize loop over all systems, stopping at the first error. -/
def serializeSystems (kb : KnowledgeBase) (l : List AISystem) :
    Except String (List (JValue × String)) :=
  match l with
  | [] => Except.ok []
  | s :: rest =>
    match serializeSystem kb s with
    | Except.error e => Except.error e
    | Except.ok pr =>
      match serializeSystems kb rest with
      | Except.error e => Except.error e
      | Except.ok prs => Except.ok (pr :: prs)

/-- The fixed-shape output document of `serialize_to_jsonld`.  The fields
`context`, `type` and `id` stand for the "@context", "@type" and "@id"
keys of the emitted dict. -/
structure JsonLdDocument : Type where
  context : JValue
  type : String
  id : String
  name : String
  description : String
  aiSystem : List JValue
  severity : String

/-- The fixed "@context" value of the emitted document. -/
def jsonLdContext : JValue :=
  JValue.arr [JValue.str "https://schema.org/",
    JValue.obj [("aifr", JValue.str "urn:aifr:vocab:"),
                ("aiSystem", JValue.str "aifr:aiSystem"),
                ("severity", JValue.str "aifr:severity")]]

/-- src/main.py `serialize_to_jsonld`: project every system, then
assemble the fixed document shape. -/
def serialize_to_jsonld (kb : KnowledgeBase) (rep : ProcessedAIFlawReport) :
    Except String JsonLdDocument :=
  match serializeSystems kb rep.ai_systems with
  | Except.error e => Except.error e
  | Except.ok pairs =>
    Except.ok
      { context := jsonLdContext
        type := "aifr:AIFlawReport"
        id := "https://aifr.org/reports/" ++ rep.report_id
        name := "AI Flaw Report: " ++ String.intercalate ", " (pairs.map Prod.snd)
        description := rep.flaw_description
        aiSystem := pairs.map Prod.fst
        severity := rep.flaw_severity }

/-- Success test for an `Except`, used to state raise/no-raise claims. -/
def exceptIsOk {α : Type} (x : Except String α) : Bool :=
  match x with
  | Except.ok _ => true
  | Except.error _ => false

/-
Helper lemmas about the embedded operations.
-/

theorem exceptIsOk_eq_true_iff {α : Type} (x : Except String α) :
    exceptIsOk x = true ↔ ∃ a, x = Except.ok a := by
  cases x <;> simp [exceptIsOk]

theorem exceptIsOk_eq_false_iff {α : Type} (x : Except String α) :
    exceptIsOk x = false ↔ ∃ e, x = Except.error e := by
  cases x <;> simp [exceptIsOk]

theorem resolveKnownSystems_eq_filterMap (kb : KnowledgeBase) (slugs : List String) :
    resolveKnownSystems kb slugs =
      slugs.filterMap (fun sl =>
        (find_system_by_slug kb sl).map (fun sd => mkKnownAISystem sd sl)) := by
  have aux : ∀ (l : List String) (acc : List AISystem),
      l.foldl (fun acc slug =>
        match find_system_by_slug kb slug with
        | some system_data => acc ++ [mkKnownAISystem system_data slug]
        | none => acc) acc =
      acc ++ l.filterMap (fun sl =>
        (find_system_by_slug kb sl).map (fun sd => mkKnownAISystem sd sl)) := by
    intro l
    induction l with
    | nil => intro acc; simp
    | cons x xs ih =>
      intro acc
      cases h : find_system_by_slug kb x with
      | none => simp [h, ih]
      | some sd => simp [h, ih]
  simpa [resolveKnownSystems] using aux slugs []

theorem mkUnknownSystems_length (report_id : String) :
    ∀ (l : List UnknownAISystem) (n : Nat),
      (mkUnknownSystems report_id n l).length = l.length := by
  intro l
  induction l with
  | nil => intro n; rfl
  | cons u rest ih => intro n; simp [mkUnknownSystems, ih]

theorem mkUnknownSystems_getElem (report_id : String) :
    ∀ (l : List UnknownAISystem) (n i : Nat),
      (mkUnknownSystems report_id n l)[i]? =
        l[i]?.map (fun u => mkUnknownAISystem report_id (n + i) u) := by
  intro l
  induction l with
  | nil => intro n i; simp [mkUnknownSystems]
  | cons u rest ih =>
    intro n i
    cases i with
    | zero => simp [mkUnknownSystems]
    | succ j =>
      have harith : n + 1 + j = n + (j + 1) := by omega
      simp only [mkUnknownSystems, List.getElem?_cons_succ, ih (n + 1) j, harith]

theorem mkUnknownSystems_system_type (report_id : String) :
    ∀ (l : List UnknownAISystem) (n : Nat) (s : AISystem),
      s ∈ mkUnknownSystems report_id n l → s.system_type = "unknown" := by
  intro l
  induction l with
  | nil => intro n s h; simp [mkUnknownSystems] at h
  | cons u rest ih =>
    intro n s h
    simp only [mkUnknownSystems, List.mem_cons] at h
    rcases h with h | h
    · rw [h]; rfl
    · exact ih (n + 1) s h

theorem process_raw_report_ok_fields (seed now : Nat) (kb : KnowledgeBase)
    (raw : RawAIFlawReport) (rep : ProcessedAIFlawReport)
    (h : process_raw_report seed now kb raw = Except.ok rep) :
    rep.report_id = report_id_of seed raw ∧
    rep.created_at = now ∧
    rep.flaw_description = raw.flaw_description ∧
    rep.flaw_severity = raw.flaw_severity ∧
    rep.ai_systems = resolveKnownSystems kb raw.ai_systems ++
      mkUnknownSystems (report_id_of seed raw) 1 raw.ai_systems_unknown := by
  unfold process_raw_report mkProcessedReport at h
  split at h
  · exact Except.noConfusion h
  · rename_i s rest heq
    injection h with h2
    subst h2
    exact ⟨rfl, rfl, rfl, rfl, heq.symm⟩

theorem process_raw_report_ok_of_ne_nil (seed now : Nat) (kb : KnowledgeBase)
    (raw : RawAIFlawReport)
    (h : resolveKnownSystems kb raw.ai_systems ++
      mkUnknownSystems (report_id_of seed raw) 1 raw.ai_systems_unknown ≠ []) :
    ∃ rep, process_raw_report seed now kb raw = Except.ok rep := by
  unfold process_raw_report mkProcessedReport
  split
  · rename_i heq; exact absurd heq h
  · rename_i s rest heq
    exact ⟨_, rfl⟩

theorem process_raw_report_error_of_nil (seed now : Nat) (kb : KnowledgeBase)
    (raw : RawAIFlawReport)
    (h : resolveKnownSystems kb raw.ai_systems ++
      mkUnknownSystems (report_id_of seed raw) 1 raw.ai_systems_unknown = []) :
    process_raw_report seed now kb raw =
      Except.error "Must specify at least one AI system" := by
  unfold process_raw_report mkProcessedReport
  split
  · rfl
  · rename_i s rest heq
    rw [h] at heq
    exact List.noConfusion heq

theorem find_system_by_slug_eq_some (kb : KnowledgeBase) (slug : String) (sd : Entry)
    (h : find_system_by_slug kb slug = some sd) :
    sd ∈ kb.systems ∧ internalSlugVal sd = some slug := by
  refine ⟨List.mem_of_find?_eq_some h, ?_⟩
  have hp := List.find?_some h
  simpa using hp

theorem mkKnownAISystem_slug (sd : Entry) (slug : String)
    (h : internalSlugVal sd = some slug) :
    (mkKnownAISystem sd slug).slug = slug := by
  show getStrD (getObjFields sd "_aifr_internal") "slug" slug = slug
  unfold internalSlugVal at h
  unfold getStrD
  cases hd : dictGet (getObjFields sd "_aifr_internal") "slug" with
  | none => simp [hd] at h
  | some v =>
    cases v with
    | str s => simp_all
    | null => simp_all
    | obj f => simp_all
    | arr a => simp_all

theorem get_system_jsonld_isSome (kb : KnowledgeBase) (slug : String) :
    (get_system_jsonld kb slug).isSome = (find_system_by_slug kb slug).isSome := by
  unfold get_system_jsonld
  cases hf : find_system_by_slug kb slug with
  | none => rfl
  | some system =>
    cases hp : publisher_id_of system with
    | none => simp [hp]
    | some pid =>
      cases ho : find_organization_by_id kb pid with
      | none => simp [hp, ho]
      | some org => simp [hp, ho]

theorem serializeSystem_error_iff (kb : KnowledgeBase) (s : AISystem) :
    exceptIsOk (serializeSystem kb s) = false ↔
      s.system_type = "known" ∧
        ((get_system_jsonld kb s.slug).getD []).isEmpty = true := by
  unfold serializeSystem
  rcases s.type_valid with hk | hu
  · have hne : ¬ s.system_type = "unknown" := by rw [hk]; decide
    rw [if_neg hne]
    cases hg : get_system_jsonld kb s.slug with
    | none => simp [exceptIsOk, hk]
    | some j =>
      cases hj : j.isEmpty with
      | true => simp [exceptIsOk, hk, hj]
      | false => simp [exceptIsOk, hk, hj]
  · rw [if_pos hu]
    simp [exceptIsOk, hu]

theorem serializeSystems_error_iff (kb : KnowledgeBase) (l : List AISystem) :
    exceptIsOk (serializeSystems kb l) = false ↔
      ∃ s ∈ l, s.system_type = "known" ∧
        ((get_system_jsonld kb s.slug).getD []).isEmpty = true := by
  induction l with
  | nil => simp [serializeSystems, exceptIsOk]
  | cons s rest ih =>
    unfold serializeSystems
    cases h1 : serializeSystem kb s with
    | error e =>
      have hbad := (serializeSystem_error_iff kb s).mp (by rw [h1]; rfl)
      constructor
      · intro _; exact ⟨s, List.mem_cons_self s rest, hbad⟩
      · intro _; rfl
    | ok pr =>
      have hgood : ¬ (s.system_type = "known" ∧
          ((get_system_jsonld kb s.slug).getD []).isEmpty = true) := by
        intro hc
        have hf := (serializeSystem_error_iff kb s).mpr hc
        rw [h1] at hf
        simp [exceptIsOk] at hf
      cases h2 : serializeSystems kb rest with
      | error e =>
        constructor
        · intro _
          obtain ⟨t, ht, hts⟩ := ih.mp (by rw [h2]; rfl)
          exact ⟨t, List.mem_cons_of_mem s ht, hts⟩
        · intro _; rfl
      | ok prs =>
        constructor
        · intro hfalse; simp [exceptIsOk] at hfalse
        · rintro ⟨t, ht, hts⟩
          rcases List.mem_cons.mp ht with rfl | htr
          · exact absurd hts hgood
          · have hx := ih.mpr ⟨t, htr, hts⟩
            rw [h2] at hx
            simp [exceptIsOk] at hx

theorem serializeSystems_ok_length (kb : KnowledgeBase) :
    ∀ (l : List AISystem) (pairs : List (JValue × String)),
      serializeSystems kb l = Except.ok pairs → pairs.length = l.length := by
  intro l
  induction l with
  | nil =>
    intro pairs h
    unfold serializeSystems at h
    injection h with h2
    subst h2
    rfl
  | cons s rest ih =>
    intro pairs h
    unfold serializeSystems at h
    cases hps : serializeSystem kb s with
    | error e => rw [hps] at h; exact Except.noConfusion h
    | ok pr =>
      rw [hps] at h
      cases hrest : serializeSystems kb rest with
      | error e => rw [hrest] at h; exact Except.noConfusion h
      | ok prs =>
        rw [hrest] at h
        injection h with h3
        subst h3
        simp [ih prs hrest]

theorem serialize_to_jsonld_ok_pairs (kb : KnowledgeBase) (rep : ProcessedAIFlawReport)
    (out : JsonLdDocument) (h : serialize_to_jsonld kb rep = Except.ok out) :
    ∃ pairs, serializeSystems kb rep.ai_systems = Except.ok pairs ∧
      out.aiSystem = pairs.map Prod.fst := by
  unfold serialize_to_jsonld at h
  cases hps : serializeSystems kb rep.ai_systems with
  | error e => rw [hps] at h; exact Except.noConfusion h
  | ok pairs =>
    rw [hps] at h
    refine ⟨pairs, rfl, ?_⟩
    injection h with h2
    rw [← h2]

theorem serialize_to_jsonld_isOk (kb : KnowledgeBase) (rep : ProcessedAIFlawReport) :
    exceptIsOk (serialize_to_jsonld kb rep) =
      exceptIsOk (serializeSystems kb rep.ai_systems) := by
  unfold serialize_to_jsonld
  cases serializeSystems kb rep.ai_systems <;> rfl


theorem dictGet_clean_internal_fields (d : Entry) (k : String) :
    dictGet (clean_internal_fields d) k =
      if startsWithUnderscore k = true then none else dictGet d k := by
  by_cases hk : startsWithUnderscore k = true
  · rw [if_pos hk]
    induction d with
    | nil => rfl
    | cons kv rest ih =>
      obtain ⟨a, b⟩ := kv
      unfold clean_internal_fields at ih ⊢
      rw [List.filter_cons]
      by_cases ha : startsWithUnderscore a = true
      · rw [if_neg (by simp [ha])]
        exact ih
      · rw [if_pos (by simp [ha])]
        unfold dictGet
        have hak : ¬ a = k := by
          intro h
          rw [h] at ha
          exact ha hk
        rw [if_neg hak]
        exact ih
  · rw [if_neg hk]
    induction d with
    | nil => rfl
    | cons kv rest ih =>
      obtain ⟨a, b⟩ := kv
      unfold clean_internal_fields at ih ⊢
      rw [List.filter_cons]
      by_cases ha : startsWithUnderscore a = true
      · rw [if_neg (by simp [ha])]
        rw [ih]
        have hak : ¬ a = k := by
          intro h
          rw [h] at ha
          exact hk ha
        conv_rhs => rw [dictGet]
        rw [if_neg hak]
      · rw [if_pos (by simp [ha])]
        unfold dictGet
        by_cases hak : a = k
        · rw [if_pos hak, if_pos hak]
        · rw [if_neg hak, if_neg hak]
          exact ih

theorem dictGet_dictSet (d : Entry) (k : String) (v : JValue) (k' : String) :
    dictGet (dictSet d k v) k' = if k' = k then some v else dictGet d k' := by
  induction d with
  | nil =>
    unfold dictSet dictGet
    by_cases h : k' = k
    · rw [if_pos h.symm, if_pos h]
    · rw [if_neg (fun hh => h hh.symm), if_neg h]
      rfl
  | cons kv rest ih =>
    obtain ⟨a, b⟩ := kv
    unfold dictSet
    by_cases ha : a = k
    · rw [if_pos ha]
      subst ha
      unfold dictGet
      by_cases hk : a = k'
      · rw [if_pos hk, if_pos hk.symm]
      · rw [if_neg hk, if_neg (fun hh => hk hh.symm), if_neg hk]
    · rw [if_neg ha]
      unfold dictGet
      by_cases hk : a = k'
      · rw [if_pos hk]
        have hne : ¬ k' = k := fun hh => ha (hk.trans hh)
        rw [if_neg hne, if_pos hk]
      · rw [if_neg hk, if_neg hk]
        exact ih

theorem foldl_slugMapInsert (k : String) :
    ∀ (l : List Entry) (m : String → Option Entry),
      (l.foldl slugMapInsert m) k =
        match l.reverse.find? (fun e => loadedSlug e == some k) with
        | some e => some e
        | none => m k := by
  intro l
  induction l with
  | nil => intro m; simp
  | cons x xs ih =>
    intro m
    rw [List.foldl_cons, ih (slugMapInsert m x), List.reverse_cons, List.find?_append]
    cases hxs : xs.reverse.find? (fun e => loadedSlug e == some k) with
    | some e => simp
    | none =>
      simp only [Option.none_or]
      unfold slugMapInsert
      cases hl : loadedSlug x with
      | none =>
        have hp : (loadedSlug x == some k) = false := by simp [hl]
        simp [List.find?, hp]
      | some s =>
        by_cases hs : s = k
        · subst hs
          have hp : (loadedSlug x == some s) = true := by simp [hl]
          simp [List.find?, hp]
        · have hp : (loadedSlug x == some k) = false := by simp [hl, hs]
          have hks : ¬ k = s := fun hh => hs hh.symm
          simp [List.find?, hp, hks]

theorem find_by_slug_eq_revFind (kb : KnowledgeBase) (k : String) :
    find_by_slug kb k =
      match (kb.organizations.reverse ++ kb.systems.reverse).find?
          (fun e => loadedSlug e == some k) with
      | some e => some e
      | none => none := by
  unfold find_by_slug slug_map
  rw [foldl_slugMapInsert k (kb.systems ++ kb.organizations) (fun _ => none)]
  rw [List.reverse_append]

/-
Concrete fixtures used by witnesses and counterexamples, shaped like the
knowledge-base JSON-LD files and the example form payload of the repo.
-/

def uChatbot : UnknownAISystem := ⟨"A chatbot on a website"⟩

def rawUnknownOnly : RawAIFlawReport :=
  ⟨[], [uChatbot], "Gave unsafe medical advice", "Critical"⟩

def rawKnownOnly : RawAIFlawReport :=
  ⟨["gpt-x"], [], "Model hallucinated a citation", "High"⟩

def rawNonexistent : RawAIFlawReport :=
  ⟨["nonexistent-slug"], [], "Model hallucinated a citation", "High"⟩

def gptxEntry : Entry :=
  [("@id", JValue.str "https://kb.example.org/systems/gpt-x"),
   ("@type", JValue.str "schema:SoftwareApplication"),
   ("name", JValue.str "GPT-X"),
   ("version", JValue.str "4.0"),
   ("publisher", JValue.obj [("@id", JValue.str "https://kb.example.org/orgs/acme")]),
   ("_aifr_internal", JValue.obj [("slug", JValue.str "gpt-x"),
                                  ("displayName", JValue.str "GPT-X (Acme)")])]

def acmeOrgEntry : Entry :=
  [("@id", JValue.str "https://kb.example.org/orgs/acme"),
   ("@type", JValue.str "schema:Organization"),
   ("name", JValue.str "Acme AI"),
   ("_aifr_internal", JValue.obj [("slug", JValue.str "acme"),
                                  ("displayName", JValue.str "Acme")])]

def kbMain : KnowledgeBase := ⟨[gptxEntry], [acmeOrgEntry]⟩

def kbEmpty : KnowledgeBase := ⟨[], []⟩

def betaOrgEntry : Entry :=
  [("@id", JValue.str "https://kb.example.org/orgs/beta"),
   ("_aifr_internal", JValue.obj [("slug", JValue.str "beta-org"),
                                  ("displayName", JValue.str "Beta")])]

def kbOrgOnly : KnowledgeBase := ⟨[], [betaOrgEntry]⟩

def rawOrgSlug : RawAIFlawReport :=
  ⟨["beta-org"], [], "Model hallucinated a citation", "High"⟩

def sharedSystemEntry : Entry :=
  [("@id", JValue.str "urn:example:system"),
   ("name", JValue.str "Shared System"),
   ("_aifr_internal", JValue.obj [("slug", JValue.str "shared")])]

def sharedOrgEntry : Entry :=
  [("@id", JValue.str "urn:example:org"),
   ("name", JValue.str "Shared Org"),
   ("_aifr_internal", JValue.obj [("slug", JValue.str "shared")])]

def kbCollide : KnowledgeBase := ⟨[sharedSystemEntry], [sharedOrgEntry]⟩

def repUnknownOnly : ProcessedAIFlawReport :=
  ⟨report_id_of 0 rawUnknownOnly, 0,
   [mkUnknownAISystem (report_id_of 0 rawUnknownOnly) 1 uChatbot],
   rawUnknownOnly.flaw_description, rawUnknownOnly.flaw_severity,
   List.cons_ne_nil _ _⟩

def repKnownOnly : ProcessedAIFlawReport :=
  ⟨report_id_of 0 rawKnownOnly, 0,
   [mkKnownAISystem gptxEntry "gpt-x"],
   rawKnownOnly.flaw_description, rawKnownOnly.flaw_severity,
   List.cons_ne_nil _ _⟩

theorem unknown_id_regroup (a : String) :
    (a ++ "/unknown-system-") ++ toString (1 : Nat) = (a ++ "/") ++ "unknown-system-1" := by
  rw [String.append_assoc, String.append_assoc]
  congr 1

/-- C2: the report identifier in src/main.py is `hash(...) % 100000` with
CPython's per-process randomized string hash, so the same raw-report
content hashed under two different per-process seeds yields two different
report identifiers — the identifier is not a function of the content
alone, contradicting the claimed determinism across processes (which the
spec itself marks as the intent, calling the source behaviour a bug). -/
theorem c2_report_id_not_content_deterministic :
    report_id_of 0 rawKnownOnly ≠ report_id_of 1 rawKnownOnly := by decide

/-- C3: for a validated raw report in which every known slug fails
resolution and there are no unknown systems, the resolver fails with the
resolution error (the `ProcessedAIFlawReport` non-empty-systems validator)
instead of returning a report with an empty system sequence. -/
theorem c3_resolution_error_when_all_slugs_drop (seed now : Nat) (kb : KnowledgeBase)
    (raw : RawAIFlawReport)
    (hvalid : isValidRawReport raw = true)
    (hdrop : ∀ sl ∈ raw.ai_systems, (find_system_by_slug kb sl).isNone = true)
    (hunk : raw.ai_systems_unknown = []) :
    process_raw_report seed now kb raw =
      Except.error "Must specify at least one AI system" := by
  apply process_raw_report_error_of_nil
  have h1 : raw.ai_systems.filterMap (fun sl =>
      (find_system_by_slug kb sl).map (fun sd => mkKnownAISystem sd sl)) = [] := by
    rw [List.filterMap_eq_nil_iff]
    intro sl hsl
    have hd := hdrop sl hsl
    cases hfs : find_system_by_slug kb sl with
    | none => rfl
    | some sd => rw [hfs] at hd; simp at hd
  rw [resolveKnownSystems_eq_filterMap, h1, hunk]
  rfl

theorem c3_witness :
    isValidRawReport rawNonexistent = true ∧
    (∀ sl ∈ rawNonexistent.ai_systems, (find_system_by_slug kbEmpty sl).isNone = true) ∧
    rawNonexistent.ai_systems_unknown = [] ∧
    process_raw_report 0 0 kbEmpty rawNonexistent =
      Except.error "Must specify at least one AI system" :=
  ⟨by decide, by decide, rfl,
   c3_resolution_error_when_all_slugs_drop 0 0 kbEmpty rawNonexistent
     (by decide) (by decide) rfl⟩

/-- A system entry carrying only the internal sub-record: it is found by
`find_system_by_slug`, but `_clean_internal_fields` strips its only field,
so `get_system_jsonld` returns the empty document. -/
def internalOnlyEntry : Entry :=
  [("_aifr_internal", JValue.obj [("slug", JValue.str "ghost"),
                                  ("displayName", JValue.str "Ghost")])]

def kbGhost : KnowledgeBase := ⟨[internalOnlyEntry], []⟩

def repGhost : ProcessedAIFlawReport :=
  ⟨"0", 0, [mkKnownAISystem internalOnlyEntry "ghost"],
   "Model hallucinated a citation", "High", List.cons_ne_nil _ _⟩

/-- C4 (counterexample): a report whose single Known system's slug DOES
resolve via `get_system_jsonld` (to the empty cleaned document of an
entry carrying only internal fields), yet serialization raises: the
source's `if not jsonld_system:` is a truthiness test, so the empty dict
triggers the same `ValueError` as an unresolvable slug.  This refutes the
claim's converse direction (serialization of a Known system raises ONLY
when the slug does not resolve). -/
theorem c4_counterexample :
    (∀ s ∈ repGhost.ai_systems, s.system_type = "known" ∧
      (get_system_jsonld kbGhost s.slug).isSome = true) ∧
    exceptIsOk (serialize_to_jsonld kbGhost repGhost) = false :=
  ⟨by decide, rfl⟩

/-- C4 (amended): serialization fails (with the source's
unknown-system-slug `ValueError`, the only error it raises) exactly when
the report contains a known system whose slug yields a falsy document
from `get_system_jsonld` — absent, or empty once internal fields are
stripped (Python truthiness of `if not jsonld_system:`). -/
theorem c4_serialize_fails_iff_cleaned_doc_falsy (kb : KnowledgeBase)
    (rep : ProcessedAIFlawReport) :
    exceptIsOk (serialize_to_jsonld kb rep) = false ↔
      ∃ s ∈ rep.ai_systems, s.system_type = "known" ∧
        ((get_system_jsonld kb s.slug).getD []).isEmpty = true := by
  rw [serialize_to_jsonld_isOk]
  exact serializeSystems_error_iff kb rep.ai_systems

/-- C5: the enriched report's system sequence is exactly the known slugs
that resolve, in input order with unresolvable slugs silently omitted,
followed by the unknown systems in input order. -/
theorem c5_system_sequence_structure (seed now : Nat) (kb : KnowledgeBase)
    (raw : RawAIFlawReport) (rep : ProcessedAIFlawReport)
    (hvalid : isValidRawReport raw = true)
    (h : process_raw_report seed now kb raw = Except.ok rep) :
    rep.ai_systems =
      raw.ai_systems.filterMap (fun sl =>
        (find_system_by_slug kb sl).map (fun sd => mkKnownAISystem sd sl)) ++
      mkUnknownSystems rep.report_id 1 raw.ai_systems_unknown := by
  obtain ⟨hid, _, _, _, hsys⟩ := process_raw_report_ok_fields seed now kb raw rep h
  rw [hsys, resolveKnownSystems_eq_filterMap, hid]

theorem c5_witness :
    isValidRawReport rawKnownOnly = true ∧
    process_raw_report 0 0 kbMain rawKnownOnly = Except.ok repKnownOnly ∧
    repKnownOnly.ai_systems =
      rawKnownOnly.ai_systems.filterMap (fun sl =>
        (find_system_by_slug kbMain sl).map (fun sd => mkKnownAISystem sd sl)) ++
      mkUnknownSystems repKnownOnly.report_id 1 rawKnownOnly.ai_systems_unknown :=
  ⟨by decide, rfl,
   c5_system_sequence_structure 0 0 kbMain rawKnownOnly repKnownOnly (by decide) rfl⟩

/-- C7: the emitted `aiSystem` array has exactly one element per resolved
system of the report, and is never empty (the report's systems list is
non-empty by its construction-time validator). -/
theorem c7_aiSystem_length (kb : KnowledgeBase) (rep : ProcessedAIFlawReport)
    (out : JsonLdDocument) (h : serialize_to_jsonld kb rep = Except.ok out) :
    out.aiSystem.length = rep.ai_systems.length ∧ out.aiSystem.length ≠ 0 := by
  obtain ⟨pairs, hpairs, hout⟩ := serialize_to_jsonld_ok_pairs kb rep out h
  have hlen : pairs.length = rep.ai_systems.length :=
    serializeSystems_ok_length kb rep.ai_systems pairs hpairs
  constructor
  · rw [hout, List.length_map, hlen]
  · rw [hout, List.length_map, hlen]
    intro h0
    exact rep.systems_nonempty (List.length_eq_zero.mp h0)

def docUnknownOnly : JsonLdDocument :=
  { context := jsonLdContext
    type := "aifr:AIFlawReport"
    id := "https://aifr.org/reports/" ++ repUnknownOnly.report_id
    name := "AI Flaw Report: " ++ String.intercalate ", " ["Unknown System"]
    description := repUnknownOnly.flaw_description
    aiSystem := [unknownJsonLd (mkUnknownAISystem (report_id_of 0 rawUnknownOnly) 1 uChatbot)]
    severity := repUnknownOnly.flaw_severity }

theorem c7_witness :
    serialize_to_jsonld kbEmpty repUnknownOnly = Except.ok docUnknownOnly ∧
    docUnknownOnly.aiSystem.length = repUnknownOnly.ai_systems.length ∧
    docUnknownOnly.aiSystem.length ≠ 0 :=
  ⟨rfl, c7_aiSystem_length kbEmpty repUnknownOnly docUnknownOnly rfl⟩

/-- C1 (code-bug evaluation): the spec's unknown-only scenario — empty
known-slug list, one unknown system with non-empty description, flaw
description of minimum length, valid severity — is REJECTED by the
source's validation: the cross-field validator runs on the first field
`ai_systems` before `ai_systems_unknown` has been validated, so both
local variables fall back on the empty known-slug list and the check
fails, although one unknown system is present.  The resolution stage, run
on the same input past the validator, does produce exactly one Unknown
system whose synthetic identifier ends in "unknown-system-1", as the
claim (and the spec scenario) states. -/
theorem c1_validation_rejects_unknown_only_report :
    rawUnknownOnly.ai_systems = [] ∧
    rawUnknownOnly.ai_systems_unknown.length = 1 ∧
    (∀ u ∈ rawUnknownOnly.ai_systems_unknown, 1 ≤ u.description.length) ∧
    10 ≤ rawUnknownOnly.flaw_description.length ∧
    validSeverity rawUnknownOnly.flaw_severity = true ∧
    isValidRawReport rawUnknownOnly = false ∧
    validate_at_least_one_on_ai_systems rawUnknownOnly = false ∧
    (∃ rep, process_raw_report 0 0 kbEmpty rawUnknownOnly = Except.ok rep ∧
      rep.ai_systems.length = 1 ∧
      ∀ s ∈ rep.ai_systems, s.system_type = "unknown" ∧
        s.description = some uChatbot.description ∧
        ∃ p, s.id = p ++ "unknown-system-1") := by
  refine ⟨rfl, rfl, by decide, by decide, rfl, by decide, rfl, ?_⟩
  refine ⟨repUnknownOnly, rfl, rfl, ?_⟩
  intro s hs
  have hs2 : s = mkUnknownAISystem (report_id_of 0 rawUnknownOnly) 1 uChatbot :=
    List.mem_singleton.mp hs
  subst hs2
  refine ⟨rfl, rfl, ⟨("https://aifr.org/reports/" ++ report_id_of 0 rawUnknownOnly) ++ "/", ?_⟩⟩
  exact unknown_id_regroup ("https://aifr.org/reports/" ++ report_id_of 0 rawUnknownOnly)

/-- C6 (counterexample): a valid raw report whose only known slug is
present in the Knowledge Base Index combined map (registered by an
organization entry), yet resolve-then-serialize raises: resolution uses
the type-scoped system lookup, silently drops the slug, and fails on the
empty system list. -/
theorem c6_counterexample :
    isValidRawReport rawOrgSlug = true ∧
    (∀ sl ∈ rawOrgSlug.ai_systems, (find_by_slug kbOrgOnly sl).isSome = true) ∧
    process_raw_report 0 0 kbOrgOnly rawOrgSlug =
      Except.error "Must specify at least one AI system" :=
  ⟨by decide, by decide, rfl⟩

/-- C6 (amended): for every valid raw report whose known slugs all
resolve as AI systems via `find_system_by_slug` against the index used by
both stages, and whose resolved entries each yield a non-empty (truthy)
cleaned document from `get_system_jsonld`, resolve followed by serialize
raises no error. -/
theorem c6_amended_pipeline_ok (seed now : Nat) (kb : KnowledgeBase)
    (raw : RawAIFlawReport)
    (hvalid : isValidRawReport raw = true)
    (hres : ∀ sl ∈ raw.ai_systems, (find_system_by_slug kb sl).isSome = true)
    (hdoc : ∀ sl ∈ raw.ai_systems,
      ((get_system_jsonld kb sl).getD []).isEmpty = false) :
    ∃ rep out, process_raw_report seed now kb raw = Except.ok rep ∧
      serialize_to_jsonld kb rep = Except.ok out := by
  have hknown_ne : raw.ai_systems ≠ [] := by
    have h1 : validate_at_least_one_on_ai_systems raw = true := by
      unfold isValidRawReport at hvalid
      simp only [Bool.and_eq_true] at hvalid
      tauto
    unfold validate_at_least_one_on_ai_systems at h1
    intro hnil
    rw [hnil] at h1
    simp at h1
  obtain ⟨sl0, rest0, hsl⟩ : ∃ a l, raw.ai_systems = a :: l := by
    cases hh : raw.ai_systems with
    | nil => exact absurd hh hknown_ne
    | cons a l => exact ⟨a, l, rfl⟩
  have hres0 : (find_system_by_slug kb sl0).isSome = true := by
    apply hres
    rw [hsl]
    exact List.mem_cons_self _ _
  obtain ⟨sd0, hsd0⟩ := Option.isSome_iff_exists.mp hres0
  have hrk_ne : resolveKnownSystems kb raw.ai_systems ≠ [] := by
    rw [resolveKnownSystems_eq_filterMap, hsl, List.filterMap_cons, hsd0]
    simp
  have hne : resolveKnownSystems kb raw.ai_systems ++
      mkUnknownSystems (report_id_of seed raw) 1 raw.ai_systems_unknown ≠ [] := by
    intro hx
    exact hrk_ne (List.append_eq_nil.mp hx).1
  obtain ⟨rep, hrep⟩ := process_raw_report_ok_of_ne_nil seed now kb raw hne
  have hsys := (process_raw_report_ok_fields seed now kb raw rep hrep).2.2.2.2
  have hok : exceptIsOk (serialize_to_jsonld kb rep) = true := by
    cases hb : exceptIsOk (serialize_to_jsonld kb rep) with
    | true => rfl
    | false =>
      exfalso
      have hbad := (serializeSystems_error_iff kb rep.ai_systems).mp
        (by rw [← serialize_to_jsonld_isOk]; exact hb)
      obtain ⟨s, hmem, hknown, hempty⟩ := hbad
      rw [hsys] at hmem
      rcases List.mem_append.mp hmem with hmem1 | hmem2
      · rw [resolveKnownSystems_eq_filterMap] at hmem1
        obtain ⟨sl, hsl_mem, hmap⟩ := List.mem_filterMap.mp hmem1
        cases hfs : find_system_by_slug kb sl with
        | none => rw [hfs] at hmap; exact Option.noConfusion hmap
        | some sd =>
          rw [hfs] at hmap
          simp only [Option.map_some'] at hmap
          injection hmap with hmap
          have hint : internalSlugVal sd = some sl :=
            (find_system_by_slug_eq_some kb sl sd hfs).2
          have hslug : s.slug = sl := by
            rw [← hmap]
            exact mkKnownAISystem_slug sd sl hint
          rw [hslug, hdoc sl hsl_mem] at hempty
          exact Bool.noConfusion hempty
      · have hu := mkUnknownSystems_system_type (report_id_of seed raw)
          raw.ai_systems_unknown 1 s hmem2
        rw [hu] at hknown
        exact absurd hknown (by decide)
  obtain ⟨out, hout⟩ := (exceptIsOk_eq_true_iff _).mp hok
  exact ⟨rep, out, hrep, hout⟩

theorem c6_witness :
    isValidRawReport rawKnownOnly = true ∧
    (∀ sl ∈ rawKnownOnly.ai_systems, (find_system_by_slug kbMain sl).isSome = true) ∧
    (∀ sl ∈ rawKnownOnly.ai_systems,
      ((get_system_jsonld kbMain sl).getD []).isEmpty = false) ∧
    ∃ rep out, process_raw_report 0 0 kbMain rawKnownOnly = Except.ok rep ∧
      serialize_to_jsonld kbMain rep = Except.ok out :=
  ⟨by decide, by decide, by decide,
   c6_amended_pipeline_ok 0 0 kbMain rawKnownOnly (by decide) (by decide) (by decide)⟩

/-- C8: the unknown-system description at 0-based position i (1-based
position i+1) yields, at position (number of resolved knowns) + i of the
enriched report, an Unknown system whose identifier is
`https://aifr.org/reports/<report-id>/unknown-system-<i+1>`, and the
serializer projects it to exactly the three-field object
with "@type" schema:SoftwareApplication, "@id" that identifier, and
"description" the user-supplied text. -/
theorem c8_unknown_identifier_and_projection (seed now : Nat) (kb : KnowledgeBase)
    (raw : RawAIFlawReport) (rep : ProcessedAIFlawReport) (i : Nat)
    (u : UnknownAISystem)
    (hrep : process_raw_report seed now kb raw = Except.ok rep)
    (hu : raw.ai_systems_unknown[i]? = some u) :
    ∃ s, rep.ai_systems[(resolveKnownSystems kb raw.ai_systems).length + i]? = some s ∧
      s.id = "https://aifr.org/reports/" ++ rep.report_id ++ "/unknown-system-" ++
        toString (i + 1) ∧
      s.description = some u.description ∧
      serializeSystem kb s = Except.ok
        (JValue.obj [("@type", JValue.str "schema:SoftwareApplication"),
                     ("@id", JValue.str s.id),
                     ("description", JValue.str u.description)], "Unknown System") := by
  obtain ⟨hid, _, _, _, hsys⟩ := process_raw_report_ok_fields seed now kb raw rep hrep
  refine ⟨mkUnknownAISystem (report_id_of seed raw) (1 + i) u, ?_, ?_, rfl, ?_⟩
  · rw [hsys, List.getElem?_append_right (Nat.le_add_right _ _), Nat.add_sub_cancel_left]
    rw [mkUnknownSystems_getElem (report_id_of seed raw) raw.ai_systems_unknown 1 i, hu]
    rfl
  · rw [hid, Nat.add_comm 1 i]
    rfl
  · rfl

theorem c8_witness :
    process_raw_report 0 0 kbEmpty rawUnknownOnly = Except.ok repUnknownOnly ∧
    rawUnknownOnly.ai_systems_unknown[0]? = some uChatbot ∧
    ∃ s, repUnknownOnly.ai_systems[(resolveKnownSystems kbEmpty rawUnknownOnly.ai_systems).length + 0]? = some s ∧
      s.id = "https://aifr.org/reports/" ++ repUnknownOnly.report_id ++ "/unknown-system-" ++
        toString (0 + 1) ∧
      s.description = some uChatbot.description ∧
      serializeSystem kbEmpty s = Except.ok
        (JValue.obj [("@type", JValue.str "schema:SoftwareApplication"),
                     ("@id", JValue.str s.id),
                     ("description", JValue.str uChatbot.description)], "Unknown System") :=
  ⟨rfl, rfl,
   c8_unknown_identifier_and_projection 0 0 kbEmpty rawUnknownOnly repUnknownOnly 0
     uChatbot rfl rfl⟩

/-- C9: for a slug whose system entry exists, `get_system_jsonld` returns
a document in which every underscore-led field is absent, every other
non-publisher field carries the entry's value, and the publisher field is
replaced by the cleaned full organization record exactly when the entry
carries a (truthy) publisher "@id" that resolves among the organizations;
the knowledge base itself is a read-only input of the (pure) lookup, so
the stored entries are unchanged by construction. -/
theorem c9_get_system_jsonld_clean (kb : KnowledgeBase) (slug : String) (e : Entry)
    (h : find_system_by_slug kb slug = some e) :
    ∃ r, get_system_jsonld kb slug = some r ∧
      (∀ k, startsWithUnderscore k = true → dictGet r k = none) ∧
      (∀ k, startsWithUnderscore k = false → ¬ k = "publisher" → dictGet r k = dictGet e k) ∧
      (∀ pid org, publisher_id_of e = some pid →
        find_organization_by_id kb pid = some org →
        dictGet r "publisher" = some (JValue.obj (clean_internal_fields org))) ∧
      (∀ pid, publisher_id_of e = some pid → find_organization_by_id kb pid = none →
        dictGet r "publisher" = dictGet e "publisher") ∧
      (publisher_id_of e = none → dictGet r "publisher" = dictGet e "publisher") := by
  have hpubns : startsWithUnderscore "publisher" = false := by decide
  cases hp : publisher_id_of e with
  | none =>
    refine ⟨clean_internal_fields e, ?_, ?_, ?_, ?_, ?_, ?_⟩
    · unfold get_system_jsonld
      rw [h]
      simp [hp]
    · intro k hk
      rw [dictGet_clean_internal_fields, if_pos hk]
    · intro k hk hkp
      have hne : ¬ startsWithUnderscore k = true := by rw [hk]; exact Bool.false_ne_true
      rw [dictGet_clean_internal_fields, if_neg hne]
    · intro pid org hpid horg
      exact Option.noConfusion hpid
    · intro pid hpid horg
      exact Option.noConfusion hpid
    · intro _
      rw [dictGet_clean_internal_fields, if_neg (by rw [hpubns]; exact Bool.false_ne_true)]
  | some pid =>
    cases ho : find_organization_by_id kb pid with
    | none =>
      refine ⟨clean_internal_fields e, ?_, ?_, ?_, ?_, ?_, ?_⟩
      · unfold get_system_jsonld
        rw [h]
        simp [hp, ho]
      · intro k hk
        rw [dictGet_clean_internal_fields, if_pos hk]
      · intro k hk hkp
        have hne : ¬ startsWithUnderscore k = true := by rw [hk]; exact Bool.false_ne_true
        rw [dictGet_clean_internal_fields, if_neg hne]
      · intro pid' org hpid horg
        injection hpid with hpid
        subst hpid
        rw [ho] at horg
        exact Option.noConfusion horg
      · intro pid' hpid horg
        rw [dictGet_clean_internal_fields, if_neg (by rw [hpubns]; exact Bool.false_ne_true)]
      · intro hnone
        exact Option.noConfusion hnone
    | some org =>
      refine ⟨dictSet (clean_internal_fields e) "publisher"
          (JValue.obj (clean_internal_fields org)), ?_, ?_, ?_, ?_, ?_, ?_⟩
      · unfold get_system_jsonld
        rw [h]
        simp [hp, ho]
      · intro k hk
        have hkp : ¬ k = "publisher" := by
          intro heq
          rw [heq] at hk
          rw [hpubns] at hk
          exact Bool.noConfusion hk
        rw [dictGet_dictSet, if_neg hkp, dictGet_clean_internal_fields, if_pos hk]
      · intro k hk hkp
        have hne : ¬ startsWithUnderscore k = true := by rw [hk]; exact Bool.false_ne_true
        rw [dictGet_dictSet, if_neg hkp, dictGet_clean_internal_fields, if_neg hne]
      · intro pid' org' hpid horg
        injection hpid with hpid
        subst hpid
        rw [ho] at horg
        injection horg with horg
        subst horg
        rw [dictGet_dictSet, if_pos rfl]
      · intro pid' hpid horg
        injection hpid with hpid
        subst hpid
        rw [ho] at horg
        exact Option.noConfusion horg
      · intro hnone
        exact Option.noConfusion hnone

theorem c9_witness :
    find_system_by_slug kbMain "gpt-x" = some gptxEntry ∧
    ∃ r, get_system_jsonld kbMain "gpt-x" = some r ∧
      (∀ k, startsWithUnderscore k = true → dictGet r k = none) ∧
      (∀ k, startsWithUnderscore k = false → ¬ k = "publisher" →
        dictGet r k = dictGet gptxEntry k) ∧
      (∀ pid org, publisher_id_of gptxEntry = some pid →
        find_organization_by_id kbMain pid = some org →
        dictGet r "publisher" = some (JValue.obj (clean_internal_fields org))) ∧
      (∀ pid, publisher_id_of gptxEntry = some pid →
        find_organization_by_id kbMain pid = none →
        dictGet r "publisher" = dictGet gptxEntry "publisher") ∧
      (publisher_id_of gptxEntry = none →
        dictGet r "publisher" = dictGet gptxEntry "publisher") :=
  ⟨rfl, c9_get_system_jsonld_clean kbMain "gpt-x" gptxEntry rfl⟩

/-- C10: when a system entry and an organization entry carry the same
internal slug, the combined-map lookup `find_by_slug` answers with an
organization entry carrying that slug (organizations are inserted after
systems and overwrite the binding), while the type-scoped
`find_system_by_slug` still answers with a system entry carrying it. -/
theorem c10_slug_collision (kb : KnowledgeBase) (sl : String)
    (hsys : ∃ s ∈ kb.systems, internalSlugVal s = some sl)
    (horg : ∃ o ∈ kb.organizations, loadedSlug o = some sl) :
    (∃ o ∈ kb.organizations, loadedSlug o = some sl ∧ find_by_slug kb sl = some o) ∧
    (∃ s ∈ kb.systems, internalSlugVal s = some sl ∧
      find_system_by_slug kb sl = some s) := by
  constructor
  · obtain ⟨o, ho_mem, ho_slug⟩ := horg
    have hfind_some :
        ((kb.organizations.reverse).find? (fun e => loadedSlug e == some sl)).isSome = true := by
      rw [List.find?_isSome]
      exact ⟨o, List.mem_reverse.mpr ho_mem, by simp [ho_slug]⟩
    obtain ⟨o', ho'⟩ := Option.isSome_iff_exists.mp hfind_some
    have ho'_mem : o' ∈ kb.organizations :=
      List.mem_reverse.mp (List.mem_of_find?_eq_some ho')
    have ho'_slug : loadedSlug o' = some sl := by
      have hx := List.find?_some ho'
      simpa using hx
    refine ⟨o', ho'_mem, ho'_slug, ?_⟩
    rw [find_by_slug_eq_revFind, List.find?_append, ho']
    rfl
  · obtain ⟨s, hs_mem, hs_slug⟩ := hsys
    have hfind_some :
        ((kb.systems).find? (fun e => internalSlugVal e == some sl)).isSome = true := by
      rw [List.find?_isSome]
      exact ⟨s, hs_mem, by simp [hs_slug]⟩
    obtain ⟨s', hs'⟩ := Option.isSome_iff_exists.mp hfind_some
    refine ⟨s', List.mem_of_find?_eq_some hs', ?_, hs'⟩
    have hx := List.find?_some hs'
    simpa using hx

theorem c10_witness :
    (∃ s ∈ kbCollide.systems, internalSlugVal s = some "shared") ∧
    (∃ o ∈ kbCollide.organizations, loadedSlug o = some "shared") ∧
    ((∃ o ∈ kbCollide.organizations, loadedSlug o = some "shared" ∧
        find_by_slug kbCollide "shared" = some o) ∧
     (∃ s ∈ kbCollide.systems, internalSlugVal s = some "shared" ∧
        find_system_by_slug kbCollide "shared" = some s)) :=
  ⟨by decide, by decide,
   c10_slug_collision kbCollide "shared" (by decide) (by decide)⟩
